import Mathlib

/-!
# Shallow embedding of the `VoiceWakeRuntime` actor

This file embeds the voice-wake background listener (the `VoiceWakeRuntime`
Swift actor) and proves the specification's claims about it.

Modelling conventions:

* Swift `String` values are modelled as `List Char`; `lowercased()` is
  per-character lowercasing and `trimmingCharacters(in: .whitespacesAndNewlines)`
  drops whitespace characters from both ends.
* Wall-clock instants and durations are modelled in integral milliseconds
  (`Nat`): the tunables `silenceWindow = 1.0s`, `captureHardStop = 8.0s` and
  `debounceAfterSend = 0.35s` become `1000`, `8000` and `350`, and the
  presentation delays `1.0s` / `3.0s` become `1000` / `3000`.  Every actor
  method that reads `Date()` takes the current instant `now` as a parameter.
* Calls out of the actor (the overlay controller, the app-state store and the
  logger) are modelled as an emitted list of `Effect`s.
* The detached `Task { await self.start(with: current) }` spawned by
  `restartRecognizer` is modelled by returning the saved configuration as a
  `pendingStart` value; a later step of a modelled execution may consume it by
  invoking `start`.  This keeps the asynchrony of the restart observable: state
  changes made by `start` happen at the (later) instant at which that task runs.
* `start`'s two failure exits (speech recognizer unavailable; audio engine
  start throwing) are modelled by the boolean parameters `recognizerAvailable`
  and `audioStartOk`.
-/

namespace VoiceWake

/-- Swift strings, modelled as lists of characters. -/
abbrev Str := List Char

/-- `String.lowercased()`, modelled per character. -/
def toLower (s : Str) : Str := s.map Char.toLower

/-- `String.trimmingCharacters(in: .whitespacesAndNewlines)`. -/
def trim (s : Str) : Str :=
  ((s.dropWhile Char.isWhitespace).reverse.dropWhile Char.isWhitespace).reverse

/-- Does `hay` start with `needle`?  (Helper for the substring search.) -/
def startsWith : Str → Str → Bool
  | _, [] => true
  | [], _ :: _ => false
  | c :: cs, d :: ds => c == d && startsWith cs ds

/-- Index of the first occurrence of `needle` in `hay`; this models both
`String.contains(_:)` (via `Option.isSome`) and `String.range(of:)` (the
returned index is the start of the leftmost match). -/
def findSub : Str → Str → Option Nat
  | [], needle => if needle.isEmpty then some 0 else none
  | c :: rest, needle =>
    if startsWith (c :: rest) needle then some 0
    else (findSub rest needle).map (fun i => i + 1)

/-- `trigger.lowercased().trimmingCharacters(in: .whitespacesAndNewlines)` —
the normalization both `matchesText` and `trimmedAfterTrigger` apply to each
configured trigger. -/
def normalizeTrigger (t : Str) : Str := trim (toLower t)

/-- `VoiceWakeRuntime.matchesText(text:triggers:)`: false on empty text, otherwise
scans the triggers in configured order, skipping those whose normalization is
empty, and succeeds on the first one occurring as a substring of the
lowercased text. -/
def matchesText (text : Str) (triggers : List Str) : Bool :=
  if text.isEmpty then false
  else
    triggers.any fun trigger =>
      let t := normalizeTrigger trigger
      !t.isEmpty && (findSub (toLower text) t).isSome

/-- `VoiceWakeRuntime.trimmedAfterTrigger(_:triggers:)`: for the first trigger
whose normalization is non-empty and occurs in the lowercased text, return the
original-case text strictly after the end of that first occurrence, trimmed of
surrounding whitespace; otherwise return the text unchanged. -/
def trimmedAfterTrigger (text : Str) : List Str → Str
  | [] => text
  | trigger :: rest =>
    let token := normalizeTrigger trigger
    if token.isEmpty then trimmedAfterTrigger text rest
    else
      match findSub (toLower text) token with
      | some i => trim (text.drop (i + token.length))
      | none => trimmedAfterTrigger text rest

/-- Number of maximal whitespace-separated words, i.e.
`text.split(whereSeparator: { $0.isWhitespace }).count` (which omits empty
subsequences).  The boolean argument tracks whether the scan is inside a word. -/
def countWords : Str → Bool → Nat
  | [], _ => 0
  | c :: rest, inWord =>
    if c.isWhitespace then countWords rest false
    else (if inWord then 0 else 1) + countWords rest true

/-- `VoiceWakeRuntime.textHasBeyondTriggerContent(_:)`: the raw text splits
into more than one whitespace-separated word. -/
def textHasBeyondTriggerContent (text : Str) : Bool :=
  decide (1 < countWords text false)

/-- `VoiceWakeRuntime.RuntimeConfig`. -/
structure RuntimeConfig where
  triggers : List Str
  micID : Option Str
  localeID : Option Str
deriving DecidableEq

/-- Dismissal reasons of `VoiceWakeOverlayController.dismiss(reason:)`; the
bare `dismiss()` performed by `stop()` is modelled as `Effect.dismiss none`. -/
inductive DismissReason where
  | empty : DismissReason
  | normal : DismissReason
deriving DecidableEq

/-- Observable calls the runtime makes to its collaborators and logger. -/
inductive Effect where
  | logStarted : Effect
  | logStopped : Effect
  | logRecognitionError : Effect
  | showPartial : Str → Effect
  | dismiss : Option DismissReason → Effect
  | presentFinal : Str → Str → Nat → Effect
  | triggerVoiceEars : Effect
  | stopVoiceEars : Effect
deriving DecidableEq

/-- `true` on `Effect.presentFinal` values only. -/
def isPresentFinalEffect : Effect → Bool
  | Effect.presentFinal _ _ _ => true
  | _ => false

/-- `true` on `Effect.dismiss (some DismissReason.empty)` only. -/
def isDismissEmptyEffect : Effect → Bool
  | Effect.dismiss (some DismissReason.empty) => true
  | _ => false

/-- The actor's mutable stored properties.  `taskRunning` models
`recognitionTask != nil` and `captureTaskRunning` models `captureTask != nil`. -/
structure Runtime where
  lastHeard : Option Nat
  captureStartedAt : Option Nat
  capturedTranscript : Str
  isCapturing : Bool
  heardBeyondTrigger : Bool
  cooldownUntil : Option Nat
  currentConfig : Option RuntimeConfig
  taskRunning : Bool
  captureTaskRunning : Bool
deriving DecidableEq

/-- The actor's initial property values. -/
def initialRuntime : Runtime :=
  { lastHeard := none
    captureStartedAt := none
    capturedTranscript := []
    isCapturing := false
    heardBeyondTrigger := false
    cooldownUntil := none
    currentConfig := none
    taskRunning := false
    captureTaskRunning := false }

/-- `silenceWindow: TimeInterval = 1.0`, in ms. -/
def silenceWindowMs : Nat := 1000

/-- `captureHardStop: TimeInterval = 8.0`, in ms. -/
def captureHardStopMs : Nat := 8000

/-- `debounceAfterSend: TimeInterval = 0.35`, in ms. -/
def debounceAfterSendMs : Nat := 350

/-- Result of one modelled actor step: the new state, the effects emitted, and
(when a recognizer restart was requested) the configuration the detached
restart task will later pass to `start`. -/
structure StepResult where
  state : Runtime
  effects : List Effect
  pendingStart : Option RuntimeConfig
deriving DecidableEq

/-- `VoiceWakeRuntime.stop()`: cancels the capture monitor, clears the capture
session, cancels the recognition task, releases the audio resources, clears the
active configuration, logs, and dismisses the overlay (bare reason).  It does
not touch `lastHeard`, `heardBeyondTrigger` or `cooldownUntil`. -/
def stop (s : Runtime) : StepResult :=
  ⟨{ s with
      captureTaskRunning := false
      isCapturing := false
      capturedTranscript := []
      captureStartedAt := none
      taskRunning := false
      currentConfig := none },
    [Effect.logStopped, Effect.dismiss none], none⟩

/-- `VoiceWakeRuntime.start(with:)` at instant `now`.  On the success path it
records the configuration, sets `lastHeard` to the start instant, clears the
cooldown, and starts the recognition task.  `recognizerAvailable = false`
models the unavailable-recognizer guard (plain return); `audioStartOk = false`
models `audioEngine.start()` throwing, whose catch block calls `stop()`. -/
def start (s : Runtime) (cfg : RuntimeConfig) (now : Nat)
    (recognizerAvailable audioStartOk : Bool) : StepResult :=
  if !recognizerAvailable then ⟨s, [], none⟩
  else if !audioStartOk then
    let r := stop s
    ⟨r.state, r.effects, none⟩
  else
    ⟨{ s with
        currentConfig := some cfg
        lastHeard := some now
        cooldownUntil := none
        taskRunning := true },
      [Effect.logStarted], none⟩

/-- `VoiceWakeRuntime.restartRecognizer()`: saves the current configuration,
stops, and spawns a detached task to start again with the saved configuration
(returned here as `pendingStart`). -/
def restartRecognizer (s : Runtime) : StepResult :=
  let current := s.currentConfig
  let r := stop s
  ⟨r.state, r.effects, current⟩

/-- `VoiceWakeRuntime.updateHeardBeyondTrigger(with:)`: latches the flag once
the raw transcript has more than one word. -/
def updateHeardBeyondTrigger (s : Runtime) (transcript : Str) : Runtime :=
  if !s.heardBeyondTrigger && textHasBeyondTriggerContent transcript then
    { s with heardBeyondTrigger := true }
  else s

/-- The two mid-capture state updates of `handleRecognition` (capture
transcript replaced wholesale by the fresh post-trigger trim, then the
heard-beyond flag updated from the raw transcript). -/
def captureUpdateState (s : Runtime) (tr : Str) (cfg : RuntimeConfig) : Runtime :=
  updateHeardBeyondTrigger
    { s with capturedTranscript := trimmedAfterTrigger tr cfg.triggers } tr

/-- The cooldown guard `if let cooldown = cooldownUntil, now < cooldown`. -/
def shouldIgnoreForCooldown (s : Runtime) (now : Nat) : Bool :=
  match s.cooldownUntil with
  | some c => decide (now < c)
  | none => false

/-- `VoiceWakeRuntime.beginCapture(transcript:config:)` at instant `now`:
creates the capture session (post-trigger-trimmed transcript, start timestamp,
heard-beyond flag computed from the raw transcript), clears the cooldown,
shows the partial transcript, raises the voice-ears indicator, and starts the
capture monitor task. -/
def beginCapture (s : Runtime) (transcript : Str) (cfg : RuntimeConfig) (now : Nat) :
    StepResult :=
  let s1 := { s with
    isCapturing := true
    capturedTranscript := trimmedAfterTrigger transcript cfg.triggers
    captureStartedAt := some now
    cooldownUntil := none
    heardBeyondTrigger := textHasBeyondTriggerContent transcript
    captureTaskRunning := true }
  ⟨s1, [Effect.showPartial s1.capturedTranscript, Effect.triggerVoiceEars], none⟩

/-- The error-logging prologue of `handleRecognition`. -/
def errorEffects (hasError : Bool) : List Effect :=
  if hasError then [Effect.logRecognitionError] else []

/-- The non-empty-transcript block of `handleRecognition`: refresh `lastHeard`
and, while capturing, replace the captured transcript and update the
heard-beyond flag, pushing the partial transcript to the overlay. -/
def heardUpdate (s : Runtime) (tr : Str) (cfg : RuntimeConfig) (now : Nat) :
    Runtime × List Effect :=
  if tr.isEmpty then (s, [])
  else
    let s1 := { s with lastHeard := some now }
    if s1.isCapturing then
      let s2 := captureUpdateState s1 tr cfg
      (s2, [Effect.showPartial s2.capturedTranscript])
    else (s1, [])

/-- `VoiceWakeRuntime.handleRecognition(transcript:error:config:)` at instant
`now`: log a present error; return on an absent transcript; refresh activity
and the capture session on non-empty text; and, when not capturing, begin a
capture on a trigger match unless the cooldown window is still open. -/
def handleRecognition (s : Runtime) (transcript : Option Str) (hasError : Bool)
    (cfg : RuntimeConfig) (now : Nat) : StepResult :=
  match transcript with
  | none => ⟨s, errorEffects hasError, none⟩
  | some tr =>
    let p := heardUpdate s tr cfg now
    if p.1.isCapturing then ⟨p.1, errorEffects hasError ++ p.2, none⟩
    else if matchesText tr cfg.triggers then
      if shouldIgnoreForCooldown p.1 now then ⟨p.1, errorEffects hasError ++ p.2, none⟩
      else
        let r := beginCapture p.1 tr cfg now
        ⟨r.state, errorEffects hasError ++ p.2 ++ r.effects, none⟩
    else ⟨p.1, errorEffects hasError ++ p.2, none⟩

/-- `VoiceWakeRuntime.finalizeCapture(config:)` at instant `now`.
`forwardConfig` is the opaque value read from the app-state store at finalize
time and passed through to the overlay.  Guarded on an active capture; clears
the session; emits either a `dismiss(empty)` (empty trimmed transcript) or a
`presentFinal` with delay 1000ms when speech was heard beyond the trigger and
3000ms otherwise; then in both branches sets the cooldown to `now + 350` ms and
restarts the recognizer. -/
def finalizeCapture (s : Runtime) (now : Nat) (forwardConfig : Str) : StepResult :=
  if s.isCapturing then
    let finalTranscript := trim s.capturedTranscript
    let heardBeyond := s.heardBeyondTrigger
    let s1 := { s with
      isCapturing := false
      captureTaskRunning := false
      capturedTranscript := []
      captureStartedAt := none
      lastHeard := none
      heardBeyondTrigger := false }
    if finalTranscript.isEmpty then
      let r := restartRecognizer
        { s1 with cooldownUntil := some (now + debounceAfterSendMs) }
      ⟨r.state,
        Effect.stopVoiceEars :: Effect.dismiss (some DismissReason.empty) :: r.effects,
        r.pendingStart⟩
    else
      let delay : Nat := if heardBeyond then 1000 else 3000
      let r := restartRecognizer
        { s1 with cooldownUntil := some (now + debounceAfterSendMs) }
      ⟨r.state,
        Effect.stopVoiceEars :: Effect.presentFinal finalTranscript forwardConfig delay
          :: r.effects,
        r.pendingStart⟩
  else ⟨s, [], none⟩

/-- Decision taken by one iteration of `monitorCapture`'s poll loop. -/
inductive PollDecision where
  | stopHard : PollDecision
  | stopSilence : PollDecision
  | cont : Nat → PollDecision
deriving DecidableEq

/-- The decision logic of one iteration of `monitorCapture`'s 200ms poll loop:
hard stop once `now` reaches `hardStopT`; otherwise a silent strike when at
least `silenceWindow` has passed since the last activity (stopping at the
second strike); otherwise the strike counter resets to 0. -/
def monitorStep (hardStopT : Nat) (lastHeard : Option Nat) (strikes now : Nat) :
    PollDecision :=
  if hardStopT ≤ now then PollDecision.stopHard
  else
    match lastHeard with
    | some last =>
      if silenceWindowMs ≤ now - last then
        if 2 ≤ strikes + 1 then PollDecision.stopSilence
        else PollDecision.cont (strikes + 1)
      else PollDecision.cont 0
    | none => PollDecision.cont 0

/-- Result of one full loop iteration of `monitorCapture`: `continueStrikes =
some k` means the loop sleeps 200ms and polls again with strike counter `k`;
`none` means the loop has finalized (or found the capture already over) and
returned. -/
structure PollResult where
  state : Runtime
  effects : List Effect
  pendingStart : Option RuntimeConfig
  continueStrikes : Option Nat
deriving DecidableEq

/-- One full iteration of `monitorCapture`'s loop at instant `now`, with the
hard-stop instant `hardStopT` (computed once at monitor start as capture start
plus 8s) and the current strike counter. -/
def monitorPoll (s : Runtime) (hardStopT strikes now : Nat) (forwardConfig : Str) :
    PollResult :=
  if s.isCapturing then
    match monitorStep hardStopT s.lastHeard strikes now with
    | PollDecision.cont k => ⟨s, [], none, some k⟩
    | _ =>
      let r := finalizeCapture s now forwardConfig
      ⟨r.state, r.effects, r.pendingStart, none⟩
  else ⟨s, [], none, none⟩

/-- `VoiceWakeRuntime.refresh(state:)`: stop when unsupported, disabled or
missing permissions; do nothing when the incoming configuration equals the
active one and a recognition task is running; otherwise stop and start with the
new configuration. -/
def refresh (s : Runtime) (supported enabled granted : Bool) (cfg : RuntimeConfig)
    (now : Nat) (recognizerAvailable audioStartOk : Bool) : StepResult :=
  if !(supported && enabled) then stop s
  else if !granted then stop s
  else if s.currentConfig = some cfg ∧ s.taskRunning = true then ⟨s, [], none⟩
  else
    let r1 := stop s
    let r2 := start r1.state cfg now recognizerAvailable audioStartOk
    ⟨r2.state, r1.effects ++ r2.effects, r2.pendingStart⟩

/-- Fold a sequence of timed transcript events (instant, text) through
`handleRecognition`, with no recognition error in any event. -/
def processUpdates (s : Runtime) (cfg : RuntimeConfig) : List (Nat × Str) → Runtime
  | [] => s
  | u :: rest =>
    processUpdates (handleRecognition s (some u.2) false cfg u.1).state cfg rest

/-- Sample configuration with the single trigger `"claw"`. -/
def sampleConfig : RuntimeConfig := ⟨[("claw".data)], none, none⟩

/-- Sample configuration with the single two-word trigger `"hey claw"`. -/
def twoWordConfig : RuntimeConfig := ⟨[("hey claw".data)], none, none⟩

/-- A runtime state in the middle of a capture (non-empty captured transcript,
heard-beyond flag set, recognizer running under `twoWordConfig`). -/
def sampleCapturing : Runtime :=
  { initialRuntime with
    isCapturing := true
    captureTaskRunning := true
    capturedTranscript := ("what time is it".data)
    captureStartedAt := some 0
    lastHeard := some 500
    heardBeyondTrigger := true
    currentConfig := some twoWordConfig
    taskRunning := true }

/-- A listening (non-capturing) runtime state with a live recognition task. -/
def listeningState : Runtime :=
  { initialRuntime with
    currentConfig := some sampleConfig
    taskRunning := true
    lastHeard := some 5 }

/-- A listening state whose post-finalize cooldown extends to instant 500. -/
def cooldownState : Runtime :=
  { initialRuntime with cooldownUntil := some 500 }


/-! ## Lemmas about the substring search -/

theorem startsWith_iff (needle : Str) :
    ∀ hay : Str, startsWith hay needle = true ↔ needle <+: hay := by
  induction needle with
  | nil => intro hay; simp [startsWith]
  | cons d ds ih =>
    intro hay
    cases hay with
    | nil => simp [startsWith]
    | cons c cs =>
      show (c == d && startsWith cs ds) = true ↔ (d :: ds) <+: (c :: cs)
      rw [Bool.and_eq_true, beq_iff_eq, ih cs, List.cons_prefix_cons]
      exact ⟨fun h => ⟨h.1.symm, h.2⟩, fun h => ⟨h.1.symm, h.2⟩⟩

theorem findSub_isSome_iff (needle : Str) :
    ∀ hay : Str, (findSub hay needle).isSome = true ↔ ∃ i, needle <+: hay.drop i := by
  intro hay
  induction hay with
  | nil =>
    cases hne : needle.isEmpty with
    | true =>
      have : needle = [] := List.isEmpty_iff.mp hne
      subst this
      simp [findSub]
    | false =>
      have : needle ≠ [] := by
        intro h; rw [h] at hne; simp at hne
      simp [findSub, hne, List.drop_nil, List.prefix_nil, this]
  | cons c cs ih =>
    cases hsw : startsWith (c :: cs) needle with
    | true =>
      simp only [findSub, hsw, if_true, Option.isSome_some, true_iff]
      exact ⟨0, by simpa using (startsWith_iff needle (c :: cs)).mp hsw⟩
    | false =>
      simp only [findSub, hsw, Bool.false_eq_true, if_false, Option.isSome_map', ih]
      constructor
      · rintro ⟨i, hi⟩
        exact ⟨i + 1, by simpa [List.drop_succ_cons] using hi⟩
      · rintro ⟨i, hi⟩
        cases i with
        | zero =>
          exfalso
          have := (startsWith_iff needle (c :: cs)).mpr (by simpa using hi)
          rw [this] at hsw
          simp at hsw
        | succ j => exact ⟨j, by simpa [List.drop_succ_cons] using hi⟩

theorem findSub_eq_some_spec (needle : Str) :
    ∀ (hay : Str) (i : Nat), findSub hay needle = some i →
      needle <+: hay.drop i ∧ ∀ j, j < i → ¬ needle <+: hay.drop j := by
  intro hay
  induction hay with
  | nil =>
    intro i hi
    cases hne : needle.isEmpty with
    | true =>
      have hn : needle = [] := List.isEmpty_iff.mp hne
      simp [findSub, hne] at hi
      subst hn
      refine ⟨by simp [ List.nil_prefix], ?_⟩
      intro j hj
      omega
    | false => simp [findSub, hne] at hi
  | cons c cs ih =>
    intro i hi
    cases hsw : startsWith (c :: cs) needle with
    | true =>
      simp only [findSub, hsw, if_true, Option.some.injEq] at hi
      subst hi
      refine ⟨by simpa using (startsWith_iff needle (c :: cs)).mp hsw, ?_⟩
      intro j hj
      omega
    | false =>
      simp only [findSub, hsw, Bool.false_eq_true, if_false, Option.map_eq_some'] at hi
      obtain ⟨a, ha, rfl⟩ := hi
      obtain ⟨h1, h2⟩ := ih a ha
      refine ⟨by simpa [List.drop_succ_cons] using h1, ?_⟩
      intro j hj
      cases j with
      | zero =>
        intro hpre
        have := (startsWith_iff needle (c :: cs)).mpr (by simpa using hpre)
        rw [this] at hsw
        simp at hsw
      | succ k =>
        intro hpre
        exact h2 k (by omega) (by simpa [List.drop_succ_cons] using hpre)

theorem findSub_eq_none_spec (needle : Str) :
    ∀ hay : Str, findSub hay needle = none → ∀ i, ¬ needle <+: hay.drop i := by
  intro hay hnone i hpre
  have h1 : (findSub hay needle).isSome = true :=
    (findSub_isSome_iff needle hay).mpr ⟨i, hpre⟩
  rw [hnone] at h1
  simp at h1

theorem textHasBeyond_nil : textHasBeyondTriggerContent [] = false := rfl


/-! ## Lemmas about the actor's event handlers -/

theorem updateHeardBeyond_flag (s : Runtime) (tr : Str) :
    (updateHeardBeyondTrigger s tr).heardBeyondTrigger
      = (s.heardBeyondTrigger || textHasBeyondTriggerContent tr) := by
  unfold updateHeardBeyondTrigger
  cases hf : s.heardBeyondTrigger <;> cases hb : textHasBeyondTriggerContent tr <;>
    simp [hf, hb]

theorem updateHeardBeyond_isCapturing (s : Runtime) (tr : Str) :
    (updateHeardBeyondTrigger s tr).isCapturing = s.isCapturing := by
  unfold updateHeardBeyondTrigger
  split <;> rfl

theorem updateHeardBeyond_cooldownUntil (s : Runtime) (tr : Str) :
    (updateHeardBeyondTrigger s tr).cooldownUntil = s.cooldownUntil := by
  unfold updateHeardBeyondTrigger
  split <;> rfl

theorem updateHeardBeyond_captureStartedAt (s : Runtime) (tr : Str) :
    (updateHeardBeyondTrigger s tr).captureStartedAt = s.captureStartedAt := by
  unfold updateHeardBeyondTrigger
  split <;> rfl

theorem captureUpdateState_isCapturing (s : Runtime) (tr : Str) (cfg : RuntimeConfig) :
    (captureUpdateState s tr cfg).isCapturing = s.isCapturing := by
  unfold captureUpdateState
  rw [updateHeardBeyond_isCapturing]

theorem captureUpdateState_cooldownUntil (s : Runtime) (tr : Str) (cfg : RuntimeConfig) :
    (captureUpdateState s tr cfg).cooldownUntil = s.cooldownUntil := by
  unfold captureUpdateState
  rw [updateHeardBeyond_cooldownUntil]

theorem captureUpdateState_captureStartedAt (s : Runtime) (tr : Str) (cfg : RuntimeConfig) :
    (captureUpdateState s tr cfg).captureStartedAt = s.captureStartedAt := by
  unfold captureUpdateState
  rw [updateHeardBeyond_captureStartedAt]

theorem captureUpdateState_heardBeyond (s : Runtime) (tr : Str) (cfg : RuntimeConfig) :
    (captureUpdateState s tr cfg).heardBeyondTrigger
      = (s.heardBeyondTrigger || textHasBeyondTriggerContent tr) := by
  unfold captureUpdateState
  rw [updateHeardBeyond_flag]

theorem heardUpdate_isCapturing (s : Runtime) (tr : Str) (cfg : RuntimeConfig) (now : Nat) :
    (heardUpdate s tr cfg now).1.isCapturing = s.isCapturing := by
  unfold heardUpdate
  cases hemp : tr.isEmpty <;> cases hc : s.isCapturing <;>
    simp [hemp, hc, captureUpdateState_isCapturing]

theorem heardUpdate_cooldownUntil (s : Runtime) (tr : Str) (cfg : RuntimeConfig) (now : Nat) :
    (heardUpdate s tr cfg now).1.cooldownUntil = s.cooldownUntil := by
  unfold heardUpdate
  cases hemp : tr.isEmpty <;> cases hc : s.isCapturing <;>
    simp [hemp, hc, captureUpdateState_cooldownUntil]

theorem heardUpdate_captureStartedAt (s : Runtime) (tr : Str) (cfg : RuntimeConfig) (now : Nat) :
    (heardUpdate s tr cfg now).1.captureStartedAt = s.captureStartedAt := by
  unfold heardUpdate
  cases hemp : tr.isEmpty <;> cases hc : s.isCapturing <;>
    simp [hemp, hc, captureUpdateState_captureStartedAt]

theorem heardUpdate_heardBeyond (s : Runtime) (tr : Str) (cfg : RuntimeConfig) (now : Nat)
    (h : s.isCapturing = true) :
    (heardUpdate s tr cfg now).1.heardBeyondTrigger
      = (s.heardBeyondTrigger || textHasBeyondTriggerContent tr) := by
  unfold heardUpdate
  cases hemp : tr.isEmpty with
  | true =>
    have : tr = [] := List.isEmpty_iff.mp hemp
    subst this
    simp [textHasBeyond_nil]
  | false =>
    simp [hemp, h, captureUpdateState_heardBeyond]

theorem handle_capturing_state (s : Runtime) (tr : Str) (err : Bool) (cfg : RuntimeConfig)
    (now : Nat) (h : s.isCapturing = true) :
    (handleRecognition s (some tr) err cfg now).state.isCapturing = true
    ∧ (handleRecognition s (some tr) err cfg now).state.heardBeyondTrigger
        = (s.heardBeyondTrigger || textHasBeyondTriggerContent tr) := by
  have hp : (heardUpdate s tr cfg now).1.isCapturing = true := by
    rw [heardUpdate_isCapturing]; exact h
  have hflag := heardUpdate_heardBeyond s tr cfg now h
  simp only [handleRecognition, hp, if_true]
  exact ⟨by simp [hp], by simpa using hflag⟩

theorem cooldown_blocks_aux (s : Runtime) (tr : Str) (err : Bool) (cfg : RuntimeConfig)
    (now c : Nat) (hcap : s.isCapturing = false) (hcd : s.cooldownUntil = some c)
    (hlt : now < c) :
    (handleRecognition s (some tr) err cfg now).state.isCapturing = false
    ∧ (handleRecognition s (some tr) err cfg now).state.captureStartedAt
        = s.captureStartedAt := by
  have hp : (heardUpdate s tr cfg now).1.isCapturing = false := by
    rw [heardUpdate_isCapturing]; exact hcap
  have hps : (heardUpdate s tr cfg now).1.captureStartedAt = s.captureStartedAt :=
    heardUpdate_captureStartedAt s tr cfg now
  have hig : shouldIgnoreForCooldown (heardUpdate s tr cfg now).1 now = true := by
    unfold shouldIgnoreForCooldown
    rw [heardUpdate_cooldownUntil, hcd]
    simpa using hlt
  simp only [handleRecognition, hp, Bool.false_eq_true, if_false]
  by_cases hm : matchesText tr cfg.triggers = true
  · simp only [hm, if_true, hig]
    exact ⟨hp, hps⟩
  · simp only [Bool.not_eq_true] at hm
    simp only [hm, Bool.false_eq_true, if_false]
    exact ⟨hp, hps⟩

theorem handle_no_match_state (s : Runtime) (tr : Str) (err : Bool) (cfg : RuntimeConfig)
    (now : Nat) (hcap : s.isCapturing = false)
    (hm : matchesText tr cfg.triggers = false) :
    (handleRecognition s (some tr) err cfg now).state = (heardUpdate s tr cfg now).1 := by
  have hp : (heardUpdate s tr cfg now).1.isCapturing = false := by
    rw [heardUpdate_isCapturing]; exact hcap
  simp only [handleRecognition, hp, Bool.false_eq_true, if_false, hm]

theorem capture_begin_characterization (s : Runtime) (tr : Str) (err : Bool)
    (cfg : RuntimeConfig) (now : Nat)
    (hafter : (handleRecognition s (some tr) err cfg now).state.isCapturing = true)
    (hbefore : s.isCapturing = false) :
    matchesText tr cfg.triggers = true ∧ ∀ c, s.cooldownUntil = some c → c ≤ now := by
  have hp : (heardUpdate s tr cfg now).1.isCapturing = false := by
    rw [heardUpdate_isCapturing]; exact hbefore
  by_cases hm : matchesText tr cfg.triggers = true
  · refine ⟨hm, ?_⟩
    intro c hc
    by_contra hle
    have hlt : now < c := by omega
    have := (cooldown_blocks_aux s tr err cfg now c hbefore hc hlt).1
    rw [hafter] at this
    simp at this
  · exfalso
    have hm2 : matchesText tr cfg.triggers = false := by
      simpa using hm
    have := handle_no_match_state s tr err cfg now hbefore hm2
    rw [this, hp] at hafter
    simp at hafter

theorem finalize_isCapturing_false (s : Runtime) (now : Nat) (fwd : Str) :
    (finalizeCapture s now fwd).state.isCapturing = false := by
  unfold finalizeCapture restartRecognizer stop
  cases hcap : s.isCapturing with
  | false => simp [hcap]
  | true =>
    cases hemp : (trim s.capturedTranscript).isEmpty <;> simp [hcap, hemp]

theorem finalize_state (s : Runtime) (now : Nat) (fwd : Str) (hcap : s.isCapturing = true) :
    (finalizeCapture s now fwd).state
      = { initialRuntime with cooldownUntil := some (now + debounceAfterSendMs) }
    ∧ (finalizeCapture s now fwd).pendingStart = s.currentConfig := by
  unfold finalizeCapture restartRecognizer stop
  cases hemp : (trim s.capturedTranscript).isEmpty <;>
    simp [hcap, hemp, initialRuntime]

theorem processUpdates_heardBeyond_aux (cfg : RuntimeConfig) (l : List (Nat × Str)) :
    ∀ s : Runtime, s.isCapturing = true →
      ((processUpdates s cfg l).heardBeyondTrigger
        = (s.heardBeyondTrigger || l.any fun u => textHasBeyondTriggerContent u.2))
      ∧ (processUpdates s cfg l).isCapturing = true := by
  induction l with
  | nil =>
    intro s h
    simp [processUpdates, h]
  | cons u rest ih =>
    intro s h
    have hstep := handle_capturing_state s u.2 false cfg u.1 h
    have hrec := ih (handleRecognition s (some u.2) false cfg u.1).state hstep.1
    constructor
    · show (processUpdates (handleRecognition s (some u.2) false cfg u.1).state cfg rest).heardBeyondTrigger = _
      rw [hrec.1, hstep.2, List.any_cons, Bool.or_assoc]
    · exact hrec.2


/-! ## Lemmas about the trigger matcher -/

theorem isEmpty_false_iff (l : Str) : l.isEmpty = false ↔ l ≠ [] := by
  cases l <;> simp

theorem trimmedAfterTrigger_no_match (text : Str) :
    ∀ triggers : List Str,
      (∀ t ∈ triggers, normalizeTrigger t ≠ [] →
        findSub (toLower text) (normalizeTrigger t) = none) →
      trimmedAfterTrigger text triggers = text := by
  intro triggers
  induction triggers with
  | nil => intro _; rfl
  | cons trig rest ih =>
    intro hall
    cases hemp : (normalizeTrigger trig).isEmpty with
    | true =>
      simp only [trimmedAfterTrigger, hemp, if_true]
      exact ih fun t ht => hall t (List.mem_cons_of_mem _ ht)
    | false =>
      have hne : normalizeTrigger trig ≠ [] := (isEmpty_false_iff _).mp hemp
      have hnone := hall trig (List.mem_cons_self _ _) hne
      simp only [trimmedAfterTrigger, hemp, Bool.false_eq_true, if_false, hnone]
      exact ih fun t ht => hall t (List.mem_cons_of_mem _ ht)

theorem trimmedAfterTrigger_first_match (text : Str) :
    ∀ (pre : List Str) (trig : Str) (post : List Str),
      (∀ t ∈ pre, normalizeTrigger t ≠ [] →
        findSub (toLower text) (normalizeTrigger t) = none) →
      normalizeTrigger trig ≠ [] →
      ∀ i, findSub (toLower text) (normalizeTrigger trig) = some i →
        trimmedAfterTrigger text (pre ++ trig :: post)
          = trim (text.drop (i + (normalizeTrigger trig).length)) := by
  intro pre
  induction pre with
  | nil =>
    intro trig post hpre hne i hfind
    have hemp : (normalizeTrigger trig).isEmpty = false := (isEmpty_false_iff _).mpr hne
    simp only [List.nil_append, trimmedAfterTrigger, hemp, Bool.false_eq_true, if_false, hfind]
  | cons u pre2 ih =>
    intro trig post hall hne i hfind
    cases hempu : (normalizeTrigger u).isEmpty with
    | true =>
      simp only [List.cons_append, trimmedAfterTrigger, hempu, if_true]
      exact ih trig post (fun t ht => hall t (List.mem_cons_of_mem _ ht)) hne i hfind
    | false =>
      have hnone := hall u (List.mem_cons_self _ _) ((isEmpty_false_iff _).mp hempu)
      simp only [List.cons_append, trimmedAfterTrigger, hempu, Bool.false_eq_true, if_false,
        hnone]
      exact ih trig post (fun t ht => hall t (List.mem_cons_of_mem _ ht)) hne i hfind

/-- **C7**: `matches(text, triggers)` returns true iff `text` is non-empty and
some trigger, normalized (lowercased then whitespace-trimmed) and non-empty
after normalization, occurs as a substring of the lowercased text;
consequently it is false on empty text, false when every trigger normalizes to
empty, and depends on the text only through its lowercasing
(case-insensitivity). -/
theorem matchesText_characterization (text : Str) (triggers : List Str) :
    (matchesText text triggers = true ↔
      text ≠ [] ∧ ∃ t ∈ triggers, normalizeTrigger t ≠ []
        ∧ ∃ i, normalizeTrigger t <+: (toLower text).drop i)
    ∧ matchesText [] triggers = false
    ∧ ((∀ t ∈ triggers, normalizeTrigger t = []) → matchesText text triggers = false)
    ∧ (∀ text2 : Str, toLower text2 = toLower text →
        matchesText text2 triggers = matchesText text triggers) := by
  refine ⟨?_, rfl, ?_, ?_⟩
  · unfold matchesText
    cases text with
    | nil => simp
    | cons c cs =>
      rw [if_neg (by simp)]
      constructor
      · intro h
        rw [List.any_eq_true] at h
        obtain ⟨t, ht, hp⟩ := h
        simp only [Bool.and_eq_true, Bool.not_eq_true'] at hp
        exact ⟨by simp, t, ht, (isEmpty_false_iff _).mp hp.1,
          (findSub_isSome_iff _ _).mp hp.2⟩
      · rintro ⟨-, t, ht, hne, hocc⟩
        rw [List.any_eq_true]
        refine ⟨t, ht, ?_⟩
        simp only [Bool.and_eq_true, Bool.not_eq_true']
        exact ⟨(isEmpty_false_iff _).mpr hne, (findSub_isSome_iff _ _).mpr hocc⟩
  · intro hall
    unfold matchesText
    cases text with
    | nil => simp
    | cons c cs =>
      rw [if_neg (by simp)]
      cases hany : (triggers.any fun trigger =>
          let t := normalizeTrigger trigger
          !t.isEmpty && (findSub (toLower (c :: cs)) t).isSome) with
      | false => rfl
      | true =>
        exfalso
        rw [List.any_eq_true] at hany
        obtain ⟨t, ht, hp⟩ := hany
        simp [hall t ht] at hp
  · intro text2 h
    have hlen : text2.length = text.length := by
      have h2 := congrArg List.length h
      simpa [toLower] using h2
    unfold matchesText
    simp only [h]
    cases text with
    | nil =>
      cases text2 with
      | nil => rfl
      | cons a as => simp at hlen
    | cons c cs =>
      cases text2 with
      | nil => simp at hlen
      | cons a as => rfl

/-- Witness for C7: case-insensitivity at a concrete input, via the
characterization theorem. -/
theorem matchesText_characterization_witness :
    matchesText ("HEY Claw tomorrow".data) [("  Hey Claw  ".data)]
      = matchesText ("hey claw tomorrow".data) [("  Hey Claw  ".data)] :=
  ((matchesText_characterization ("hey claw tomorrow".data)
      [("  Hey Claw  ".data)]).2.2.2) ("HEY Claw tomorrow".data) (by decide)

/-- **C8**: `trimAfterTrigger` scans triggers in configured order with the same
normalization as `matches`; for the first trigger whose normalization is found
in the lowercased text it returns the original-case text strictly after the
end of the first occurrence of that match, trimmed of surrounding whitespace
(`findSub` returning `some i` means the occurrence starts at the least such
index `i`); and when no trigger is found (`findSub` returns `none`, i.e. no
occurrence at any index) it returns the text unchanged. -/
theorem trimmedAfterTrigger_characterization (text : Str) (triggers : List Str) :
    ((∀ t ∈ triggers, normalizeTrigger t ≠ [] →
        findSub (toLower text) (normalizeTrigger t) = none) →
      trimmedAfterTrigger text triggers = text)
    ∧ (∀ needle : Str, findSub (toLower text) needle = none →
        ∀ i, ¬ needle <+: (toLower text).drop i)
    ∧ (∀ pre trig post, triggers = pre ++ trig :: post →
        (∀ t ∈ pre, normalizeTrigger t ≠ [] →
          findSub (toLower text) (normalizeTrigger t) = none) →
        normalizeTrigger trig ≠ [] →
        ∀ i, findSub (toLower text) (normalizeTrigger trig) = some i →
          trimmedAfterTrigger text triggers
            = trim (text.drop (i + (normalizeTrigger trig).length))
          ∧ normalizeTrigger trig <+: (toLower text).drop i
          ∧ ∀ j, j < i → ¬ normalizeTrigger trig <+: (toLower text).drop j) := by
  refine ⟨trimmedAfterTrigger_no_match text triggers, ?_, ?_⟩
  · intro needle hnone i
    exact findSub_eq_none_spec needle (toLower text) hnone i
  · intro pre trig post heq hpre hne i hfind
    obtain ⟨h1, h2⟩ := findSub_eq_some_spec (normalizeTrigger trig) (toLower text) i hfind
    subst heq
    exact ⟨trimmedAfterTrigger_first_match text pre trig post hpre hne i hfind, h1, h2⟩

/-- Witness for C8: the two-trigger list `["x", "hey claw"]` on the text
`"Hey Claw what time"`, via the characterization theorem. -/
theorem trimmedAfterTrigger_characterization_witness :
    trimmedAfterTrigger ("Hey Claw what time".data) [("x".data), ("hey claw".data)]
      = ("what time".data) := by
  have h := ((trimmedAfterTrigger_characterization ("Hey Claw what time".data)
      [("x".data), ("hey claw".data)]).2.2 [("x".data)] ("hey claw".data) [] rfl
      (by decide) (by decide) 0 (by decide)).1
  exact h.trans (by decide)


/-! ## Claim theorems about the capture state machine -/

/-- **C1** counterexample: with the single trigger `"claw"`, a capture begun on
`"claw"` followed by the in-capture update `"hey claw"` sets
`heardBeyondTrigger`, even though no update's trimmed post-trigger transcript
ever contains two or more whitespace-separated tokens — the code tests the raw
transcript, not the post-trigger-trimmed one. -/
theorem heardBeyond_trimmed_claim_counterexample :
    ((handleRecognition initialRuntime (some ("claw".data)) false sampleConfig 0).state.isCapturing
        = true)
    ∧ ((handleRecognition
          (handleRecognition initialRuntime (some ("claw".data)) false sampleConfig 0).state
          (some ("hey claw".data)) false sampleConfig 100).state.heardBeyondTrigger = true)
    ∧ textHasBeyondTriggerContent
        (trimmedAfterTrigger ("claw".data) sampleConfig.triggers) = false
    ∧ textHasBeyondTriggerContent
        (trimmedAfterTrigger ("hey claw".data) sampleConfig.triggers) = false := by
  decide

/-- **C1** (amended): during a capture, after any sequence of transcript
updates the `heardBeyondTrigger` flag equals: the raw transcript that began
the capture had two or more whitespace-separated tokens, OR some update's raw
transcript had two or more such tokens; hence it is false until such a raw
transcript arrives and, once true, never reverts while the capture stays
active (which it does across updates). -/
theorem heardBeyond_raw_transcript_characterization (s0 : Runtime) (init : Str)
    (cfg : RuntimeConfig) (t0 : Nat) (l : List (Nat × Str)) :
    ((processUpdates (beginCapture s0 init cfg t0).state cfg l).heardBeyondTrigger
      = (textHasBeyondTriggerContent init
          || l.any fun u => textHasBeyondTriggerContent u.2))
    ∧ (processUpdates (beginCapture s0 init cfg t0).state cfg l).isCapturing = true
    ∧ ((processUpdates (beginCapture s0 init cfg t0).state cfg l).heardBeyondTrigger = true →
        ∀ more,
          (processUpdates (beginCapture s0 init cfg t0).state cfg (l ++ more)).heardBeyondTrigger
            = true) := by
  have hb : (beginCapture s0 init cfg t0).state.isCapturing = true := rfl
  have hbf : (beginCapture s0 init cfg t0).state.heardBeyondTrigger
      = textHasBeyondTriggerContent init := rfl
  have hmain := processUpdates_heardBeyond_aux cfg l (beginCapture s0 init cfg t0).state hb
  refine ⟨by rw [hmain.1, hbf], hmain.2, ?_⟩
  intro hfl more
  have hall := processUpdates_heardBeyond_aux cfg (l ++ more)
    (beginCapture s0 init cfg t0).state hb
  rw [hall.1, hbf, List.any_append]
  rw [hmain.1, hbf] at hfl
  cases hi : textHasBeyondTriggerContent init <;>
    cases hl : (l.any fun u => textHasBeyondTriggerContent u.2) <;>
      simp [hi, hl] at hfl ⊢

/-- Witness for the amended C1: the flag latched by the update `"one two"`
remains set across a further (empty) update. -/
theorem heardBeyond_raw_characterization_witness :
    (processUpdates (beginCapture initialRuntime ("claw".data) sampleConfig 0).state
        sampleConfig
        ([((100 : Nat), ("one two".data))] ++ [((200 : Nat), ([] : Str))])).heardBeyondTrigger
      = true :=
  (heardBeyond_raw_transcript_characterization initialRuntime ("claw".data) sampleConfig 0
      [((100 : Nat), ("one two".data))]).2.2 (by decide) [((200 : Nat), ([] : Str))]

/-- **C2** counterexample: finalization at instant 1000 sets the cooldown to
1350, but the `start` completing the stop/restart that finalize performs as
its tail action clears it (here at instant 1100); a trigger match at instant
1200 — strictly inside the 0.35s window — then begins a capture. -/
theorem cooldown_window_claim_counterexample :
    ((finalizeCapture sampleCapturing 1000 []).state.cooldownUntil
        = some (1000 + debounceAfterSendMs))
    ∧ (finalizeCapture sampleCapturing 1000 []).pendingStart = some twoWordConfig
    ∧ (start (finalizeCapture sampleCapturing 1000 []).state twoWordConfig 1100
        true true).state.cooldownUntil = none
    ∧ 1200 < 1000 + debounceAfterSendMs
    ∧ (handleRecognition
        (start (finalizeCapture sampleCapturing 1000 []).state twoWordConfig 1100
          true true).state
        (some ("hey claw now".data)) false twoWordConfig 1200).state.isCapturing = true := by
  decide

/-- **C2** (amended): after every finalization of an active capture, in both
branches, the cooldown window is set to the finalization instant plus the
0.35s debounce; a trigger match arriving while not capturing and before a
still-set cooldown begins no capture; but the `start` completing finalize's
tail stop/restart resets the cooldown to `none`, so the debounce only
suppresses matches processed before that restart completes. -/
theorem finalize_cooldown_debounce (s : Runtime) (now : Nat) (fwd : Str)
    (hcap : s.isCapturing = true) :
    (finalizeCapture s now fwd).state.cooldownUntil = some (now + debounceAfterSendMs)
    ∧ (∀ (s2 : Runtime) (c : Nat) (tr : Str) (err : Bool) (cfg : RuntimeConfig) (now2 : Nat),
        s2.isCapturing = false → s2.cooldownUntil = some c → now2 < c →
        (handleRecognition s2 (some tr) err cfg now2).state.isCapturing = false)
    ∧ (∀ (cfg : RuntimeConfig) (now2 : Nat),
        (start (finalizeCapture s now fwd).state cfg now2 true true).state.cooldownUntil
          = none) := by
  refine ⟨?_, ?_, ?_⟩
  · rw [(finalize_state s now fwd hcap).1]
  · intro s2 c tr err cfg now2 h1 h2 h3
    exact (cooldown_blocks_aux s2 tr err cfg now2 c h1 h2 h3).1
  · intro cfg now2
    rfl

/-- Witness for the amended C2 at a concrete capturing state. -/
theorem finalize_cooldown_debounce_witness :
    (finalizeCapture sampleCapturing 1000 ([] : Str)).state.cooldownUntil
      = some (1000 + debounceAfterSendMs) :=
  (finalize_cooldown_debounce sampleCapturing 1000 [] rfl).1

/-- **C3**: finalizing an active capture with an empty trimmed transcript
emits exactly one dismiss-with-reason-empty and no `presentFinal`; with a
non-empty trimmed transcript it emits exactly one `presentFinal` carrying that
transcript, the forward-routing configuration, and a delay of 1000ms when
`heardBeyondTrigger` was set (else 3000ms), and no dismiss-empty. -/
theorem finalize_notifications (s : Runtime) (now : Nat) (fwd : Str)
    (hcap : s.isCapturing = true) :
    (trim s.capturedTranscript = [] →
      (finalizeCapture s now fwd).effects.filter isDismissEmptyEffect
          = [Effect.dismiss (some DismissReason.empty)]
      ∧ (finalizeCapture s now fwd).effects.filter isPresentFinalEffect = [])
    ∧ (trim s.capturedTranscript ≠ [] →
      (finalizeCapture s now fwd).effects.filter isPresentFinalEffect
          = [Effect.presentFinal (trim s.capturedTranscript) fwd
               (if s.heardBeyondTrigger then 1000 else 3000)]
      ∧ (finalizeCapture s now fwd).effects.filter isDismissEmptyEffect = []) := by
  constructor
  · intro hemp
    have he : (trim s.capturedTranscript).isEmpty = true := by rw [hemp]; rfl
    unfold finalizeCapture restartRecognizer stop
    simp [hcap, he, List.filter, isDismissEmptyEffect, isPresentFinalEffect]
  · intro hne
    have he : (trim s.capturedTranscript).isEmpty = false := (isEmpty_false_iff _).mpr hne
    unfold finalizeCapture restartRecognizer stop
    simp [hcap, he, List.filter, isDismissEmptyEffect, isPresentFinalEffect]

/-- Witness for C3 (non-empty branch at a concrete capturing state). -/
theorem finalize_notifications_witness :
    (finalizeCapture sampleCapturing 1000 ("fc".data)).effects.filter isPresentFinalEffect
      = [Effect.presentFinal (trim sampleCapturing.capturedTranscript) ("fc".data)
           (if sampleCapturing.heardBeyondTrigger then 1000 else 3000)]
    ∧ (finalizeCapture sampleCapturing 1000 ("fc".data)).effects.filter isDismissEmptyEffect
      = [] :=
  (finalize_notifications sampleCapturing 1000 ("fc".data) rfl).2 (by decide)

/-- **C4**: on each monitor poll of an active capture with activity timestamp
`last`: at or past the hard stop (capture start + 8s) the capture finalizes
immediately regardless of recent activity; otherwise, once at least the 1.0s
silence window has elapsed since `last`, the strike counter increments and the
capture finalizes as soon as the counter reaches 2; otherwise the counter
resets to 0 and the capture continues to the next 200ms poll. -/
theorem monitor_poll_behavior (s : Runtime) (st strikes now last : Nat) (fwd : Str)
    (hcap : s.isCapturing = true) (hlast : s.lastHeard = some last) :
    (st + captureHardStopMs ≤ now →
      (monitorPoll s (st + captureHardStopMs) strikes now fwd).state.isCapturing = false
      ∧ (monitorPoll s (st + captureHardStopMs) strikes now fwd).continueStrikes = none)
    ∧ (now < st + captureHardStopMs → last + silenceWindowMs ≤ now → 1 ≤ strikes →
      (monitorPoll s (st + captureHardStopMs) strikes now fwd).state.isCapturing = false
      ∧ (monitorPoll s (st + captureHardStopMs) strikes now fwd).continueStrikes = none)
    ∧ (now < st + captureHardStopMs → last + silenceWindowMs ≤ now → strikes = 0 →
      monitorPoll s (st + captureHardStopMs) strikes now fwd
        = ⟨s, [], none, some (strikes + 1)⟩)
    ∧ (now < st + captureHardStopMs → now < last + silenceWindowMs →
      monitorPoll s (st + captureHardStopMs) strikes now fwd = ⟨s, [], none, some 0⟩) := by
  have hw : silenceWindowMs = 1000 := rfl
  refine ⟨?_, ?_, ?_, ?_⟩
  · intro h1
    have hstep : monitorStep (st + captureHardStopMs) s.lastHeard strikes now
        = PollDecision.stopHard := by
      unfold monitorStep
      rw [if_pos h1]
    unfold monitorPoll
    simp only [hcap, if_true, hstep]
    exact ⟨finalize_isCapturing_false s now fwd, trivial⟩
  · intro h1 h2 h3
    have hstep : monitorStep (st + captureHardStopMs) s.lastHeard strikes now
        = PollDecision.stopSilence := by
      unfold monitorStep
      rw [if_neg (by omega)]
      simp only [hlast]
      rw [if_pos (by omega), if_pos (by omega)]
    unfold monitorPoll
    simp only [hcap, if_true, hstep]
    exact ⟨finalize_isCapturing_false s now fwd, trivial⟩
  · intro h1 h2 h3
    have hstep : monitorStep (st + captureHardStopMs) s.lastHeard strikes now
        = PollDecision.cont (strikes + 1) := by
      unfold monitorStep
      rw [if_neg (by omega)]
      simp only [hlast]
      rw [if_pos (by omega), if_neg (by omega)]
    unfold monitorPoll
    simp only [hcap, if_true, hstep]
  · intro h1 h2
    have hstep : monitorStep (st + captureHardStopMs) s.lastHeard strikes now
        = PollDecision.cont 0 := by
      unfold monitorStep
      rw [if_neg (by omega)]
      simp only [hlast]
      rw [if_neg (by omega)]
    unfold monitorPoll
    simp only [hcap, if_true, hstep]

/-- Witness for C4: the hard-stop branch at a concrete state and instant. -/
theorem monitor_poll_behavior_witness :
    (monitorPoll sampleCapturing (0 + captureHardStopMs) 0 9000 ([] : Str)).state.isCapturing
      = false
    ∧ (monitorPoll sampleCapturing (0 + captureHardStopMs) 0 9000 ([] : Str)).continueStrikes
      = none :=
  (monitor_poll_behavior sampleCapturing 0 0 9000 500 [] rfl rfl).1 (by decide)

/-- **C5**: a transcript event creates a capture session only if no capture is
currently active and, when a cooldown is set, the event instant is at or after
it; a trigger match with `now < cooldownUntil` never creates a session. -/
theorem trigger_gating (s : Runtime) (tr : Str) (err : Bool) (cfg : RuntimeConfig)
    (now : Nat) :
    ((handleRecognition s (some tr) err cfg now).state.isCapturing = true →
      s.isCapturing = false →
      matchesText tr cfg.triggers = true ∧ ∀ c, s.cooldownUntil = some c → c ≤ now)
    ∧ (∀ c, s.cooldownUntil = some c → now < c → s.isCapturing = false →
        (handleRecognition s (some tr) err cfg now).state.isCapturing = false
        ∧ (handleRecognition s (some tr) err cfg now).state.captureStartedAt
            = s.captureStartedAt) := by
  constructor
  · intro h1 h2
    exact capture_begin_characterization s tr err cfg now h1 h2
  · intro c h1 h2 h3
    exact cooldown_blocks_aux s tr err cfg now c h3 h1 h2

/-- Witness for C5: a matching trigger during a live cooldown (instant 400,
cooldown until 500) does not begin a capture. -/
theorem trigger_gating_witness :
    (handleRecognition cooldownState (some ("claw now".data)) false sampleConfig
        400).state.isCapturing = false :=
  ((trigger_gating cooldownState ("claw now".data) false sampleConfig 400).2 500 rfl
    (by decide) rfl).1

/-- **C6**: `refresh` invoked with the feature supported and enabled,
permissions granted, a configuration value-equal to the active one, and a
running recognition task performs no stop and no start, emits nothing, and
leaves the entire runtime state unchanged. -/
theorem refresh_identical_config_noop (s : Runtime) (cfg : RuntimeConfig) (now : Nat)
    (recognizerAvailable audioStartOk : Bool)
    (h1 : s.currentConfig = some cfg) (h2 : s.taskRunning = true) :
    refresh s true true true cfg now recognizerAvailable audioStartOk = ⟨s, [], none⟩ := by
  unfold refresh
  rw [if_neg (by simp), if_neg (by simp), if_pos ⟨h1, h2⟩]

/-- Witness for C6 at a concrete listening state. -/
theorem refresh_identical_config_noop_witness :
    refresh listeningState true true true sampleConfig 777 true true
      = ⟨listeningState, [], none⟩ :=
  refresh_identical_config_noop listeningState sampleConfig 777 true true rfl rfl

/-- **C9**: a recognition callback delivering a present error with an absent
transcript changes no runtime state and emits no collaborator notification —
the error is only logged. -/
theorem error_without_transcript_no_change (s : Runtime) (cfg : RuntimeConfig) (now : Nat) :
    handleRecognition s none true cfg now = ⟨s, [Effect.logRecognitionError], none⟩ := rfl

/-- **C10**: every successful `start` — in particular the one completing the
restart performed at the tail of a finalization — sets `lastHeard` to the
start instant and resets `cooldownUntil` to `none`, so no cooldown timestamp
established before the start survives its completion. -/
theorem start_resets_listening_state (s : Runtime) (cfg : RuntimeConfig) (now : Nat) :
    (start s cfg now true true).state.lastHeard = some now
    ∧ (start s cfg now true true).state.cooldownUntil = none
    ∧ ∀ (t : Nat) (fwd : Str),
        (start (finalizeCapture s t fwd).state cfg now true true).state.lastHeard = some now
        ∧ (start (finalizeCapture s t fwd).state cfg now true true).state.cooldownUntil
          = none :=
  ⟨rfl, rfl, fun _t _fwd => ⟨rfl, rfl⟩⟩

end VoiceWake
